import Mathlib

/-!
Verification development for the `papers` repository.

This file gives a shallow embedding, in Lean, of the pure algorithmic core of
the repository — the ingestor's structure-recovery block walk
(crates/papers-rag/src/ingest.rs), the scope validation of the filter builder
(crates/papers-rag/src/filter.rs), the positional-context and referenced-figure
computations of the query engine (crates/papers-rag/src/query.rs), and the
selection store / paper resolver (crates/papers-core/src/selection.rs) — and
proves or refutes the specified properties of these components.

Modelling conventions:
- Rust `u16`/`u32`/`usize` counters are modelled as `Nat`; the code under
  consideration never relies on wrap-around, and all specified properties
  concern counting, not machine arithmetic.
- Rust `String` is modelled as Lean `String`; character-level operations
  (whitespace splitting, lower-casing, prefix stripping) are implemented on
  `List Char` so that every definition is executable and reduces in the kernel.
  Unicode-aware Rust operations (`char::is_whitespace`, `str::to_lowercase`)
  are modelled by their ASCII behaviour, which is what every property and
  every concrete input below exercises.
- Fallible Rust functions returning `Result` are modelled with `Except`;
  external effectful clients (the reference-manager and scholarly HTTP
  clients) are modelled as oracle functions passed in as arguments.
-/

/-! ## Character and string primitives -/

/-- Whitespace test used by Rust's `split_whitespace` / `str::trim`
(ASCII fragment). -/
def isWsChar (c : Char) : Bool :=
  c = ' ' || c = '\t' || c = '\n' || c = '\r'

/-- Rust `str::trim` on a character list: drop whitespace from both ends. -/
def trimChars (cs : List Char) : List Char :=
  ((cs.dropWhile isWsChar).reverse.dropWhile isWsChar).reverse

/-- Rust `str::trim`. -/
def trimStr (s : String) : String :=
  String.mk (trimChars s.data)

/-- Rust `str::starts_with` on strings (prefix test). -/
def strStartsWith (s p : String) : Bool :=
  p.data.isPrefixOf s.data

/-- Rust `str::strip_prefix`: `some` of the remainder when `p` is a prefix
of `s`, otherwise `none`. -/
def strDropPfx (s p : String) : Option String :=
  if p.data.isPrefixOf s.data then some (String.mk (s.data.drop p.data.length))
  else none

/-- Rust `char::to_lowercase` restricted to its ASCII action: map `A`-`Z`
(code points 65-90) to `a`-`z` by adding 32. -/
def toLowerChar (c : Char) : Char :=
  if 65 ≤ c.toNat ∧ c.toNat ≤ 90 then Char.ofNat (c.toNat + 32) else c

/-- Rust `str::to_lowercase` (ASCII fragment). -/
def toLowerStr (s : String) : String :=
  String.mk (s.data.map toLowerChar)

/-- Rust `usize::from_str` (base 10): an optional leading `+`, then one or
more ASCII digits. -/
def parseUsize (s : String) : Option Nat :=
  let cs := match s.data with
    | '+' :: rest => rest
    | cs => cs
  if cs.isEmpty then none
  else if cs.all (fun c => c.isDigit) then
    some (cs.foldl (fun n c => n * 10 + (c.toNat - 48)) 0)
  else none

/-! ## Selection store (crates/papers-core/src/selection.rs) -/

/-- `SelectionError` from selection.rs. The `Io`/`Json` variants carry foreign
error values in Rust; they are modelled with their message strings. -/
inductive SelectionError where
  | NoDataDir
  | NotFound (name : String)
  | AlreadyExists (name : String)
  | NoActiveSelection
  | InvalidName (name : String)
  | ItemNotFound
  | CannotResolve (input : String)
  | Io (msg : String)
  | Json (msg : String)
deriving DecidableEq, Repr

/-- `resolve_selection` from selection.rs, parameterized by the (sorted) list
of selection names that `list_selection_names()` reads from disk.
Accepts a 1-based index or a case-insensitive exact name match. -/
def resolve_selection (names : List String) (input : String) :
    Except SelectionError String :=
  match parseUsize input with
  | some idx =>
      if idx = 0 ∨ names.length < idx then
        Except.error (SelectionError.NotFound input)
      else
        Except.ok (names.getD (idx - 1) "")
  | none =>
      let inputLower := toLowerStr input
      match names.find? (fun n => toLowerStr n == inputLower) with
      | some n => Except.ok n
      | none => Except.error (SelectionError.NotFound input)

/-- `strip_doi_prefix` from selection.rs: strip the first matching one of
`https://doi.org/`, `http://doi.org/`, `doi:`. -/
def stripDoiPfx (doi : String) : String :=
  match strDropPfx doi "https://doi.org/" with
  | some r => r
  | none =>
    match strDropPfx doi "http://doi.org/" with
    | some r => r
    | none =>
      match strDropPfx doi "doi:" with
      | some r => r
      | none => doi

/-- `normalize_doi` from selection.rs: strip a DOI prefix, then lowercase. -/
def normalize_doi (doi : String) : String :=
  toLowerStr (stripDoiPfx doi)

/-- `looks_like_doi` from selection.rs. -/
def looks_like_doi (input : String) : Bool :=
  let s := stripDoiPfx input
  strStartsWith s "10." && s.data.contains '/'

/-- `looks_like_openalex_work_id` from selection.rs. -/
def looks_like_openalex_work_id (input : String) : Bool :=
  let id := (strDropPfx input "https://openalex.org/").getD input
  strStartsWith id "W" && decide (1 < id.data.length) &&
    (id.data.drop 1).all (fun c => c.isDigit)

/-! ## Filter builder scope validation (crates/papers-rag/src/filter.rs) -/

/-- `RagError` from crates/papers-rag/src/error.rs (foreign payloads modelled
as message strings). -/
inductive RagError where
  | LanceDb (msg : String)
  | Embed (msg : String)
  | Arrow (msg : String)
  | Scope (msg : String)
  | NotFound (msg : String)
  | Io (msg : String)
  | Json (msg : String)
deriving DecidableEq, Repr

/-- `validate_scope` from filter.rs: `section_idx` requires `chapter_idx`;
`chapter_idx` requires `paper_id`. -/
def validate_scope (chapter_idx section_idx : Option Nat)
    (paper_id : Option String) : Except RagError Unit :=
  if section_idx.isSome && chapter_idx.isNone then
    Except.error (RagError.Scope "section_idx requires chapter_idx")
  else if chapter_idx.isSome && paper_id.isNone then
    Except.error (RagError.Scope "chapter_idx requires paper_id")
  else
    Except.ok ()

/-- The eight present/absent shapes of `validate_scope`'s three arguments,
with representative present values. -/
def scopeShapes : List (Option Nat × Option Nat × Option String) :=
  [(none, none, none), (none, none, some "p"),
   (none, some 2, none), (none, some 2, some "p"),
   (some 1, none, none), (some 1, none, some "p"),
   (some 1, some 2, none), (some 1, some 2, some "p")]

/-! ## Helper lemmas on the string primitives -/

theorem charOfNatAux_toNat (n : Nat) (h : n.isValidChar) :
    (Char.ofNatAux n h).toNat = n := by
  unfold Char.ofNatAux Char.toNat
  simp [UInt32.ofNat', UInt32.toNat, BitVec.toNat_ofNatLt]

theorem toLowerChar_idem (c : Char) :
    toLowerChar (toLowerChar c) = toLowerChar c := by
  unfold toLowerChar
  by_cases h : 65 ≤ c.toNat ∧ c.toNat ≤ 90
  · rw [if_pos h, if_neg]
    have hv : (c.toNat + 32).isValidChar := by
      left
      omega
    unfold Char.ofNat
    rw [dif_pos hv, charOfNatAux_toNat]
    omega
  · rw [if_neg h, if_neg h]

theorem toLowerStr_idem (s : String) :
    toLowerStr (toLowerStr s) = toLowerStr s := by
  unfold toLowerStr
  congr 1
  show List.map toLowerChar (List.map toLowerChar s.data) = _
  rw [List.map_map]
  exact List.map_congr_left (fun a _ => toLowerChar_idem a)

theorem strDropPfx_eq_none (s p : String) (h : strStartsWith s p = false) :
    strDropPfx s p = none := by
  unfold strDropPfx
  rw [if_neg]
  unfold strStartsWith at h
  simp [h]

theorem stripDoiPfx_id_of_noPfx (s : String)
    (h1 : strStartsWith s "https://doi.org/" = false)
    (h2 : strStartsWith s "http://doi.org/" = false)
    (h3 : strStartsWith s "doi:" = false) :
    stripDoiPfx s = s := by
  unfold stripDoiPfx
  rw [strDropPfx_eq_none s _ h1, strDropPfx_eq_none s _ h2,
    strDropPfx_eq_none s _ h3]

/-! ## Claim C4 — validate_scope accepted/rejected shapes -/

/-- C4 counterexample: among the eight present/absent shapes of
`validate_scope`'s three arguments, the number of rejected shapes is four,
not three as claimed ("returns a scope error for the three remaining
combinations"): the rejected shapes are (None, Some, None), (None, Some, Some),
(Some, None, None) and (Some, Some, None). -/
theorem C4_counterexample :
    (scopeShapes.filter
      (fun t => match validate_scope t.1 t.2.1 t.2.2 with
        | Except.ok _ => false
        | Except.error _ => true)).length = 4
    ∧ (4 : Nat) ≠ 3 := by
  constructor
  · decide
  · decide

/-- C4 (amended): `validate_scope` returns `Ok` for exactly the four argument
shapes (None, None, None), (None, None, Some), (Some, None, Some),
(Some, Some, Some), and returns a scope error for the FOUR remaining
combinations of present/absent arguments. -/
theorem C4_amended (c s : Option Nat) (p : Option String) :
    (validate_scope c s p = Except.ok () ↔
      ((c = none ∧ s = none ∧ p = none) ∨
       (c = none ∧ s = none ∧ p ≠ none) ∨
       (c ≠ none ∧ s = none ∧ p ≠ none) ∨
       (c ≠ none ∧ s ≠ none ∧ p ≠ none)))
    ∧ (validate_scope c s p ≠ Except.ok () →
        ∃ m, validate_scope c s p = Except.error (RagError.Scope m)) := by
  cases c <;> cases s <;> cases p <;> simp [validate_scope]

/-- C4 witness: the amended theorem applied at the fully-present shape. -/
theorem C4_amended_witness :
    validate_scope (some 1) (some 2) (some "p") = Except.ok () :=
  (C4_amended (some 1) (some 2) (some "p")).1.mpr (by decide)

/-! ## Claim C5 — DOI normalization idempotence -/

/-- C5 counterexample: `normalize_doi` is NOT idempotent on every input.
The input `DOI:10.1/A` carries an upper-case variant of the `doi:` prefix;
the case-sensitive strip leaves it in place and lower-casing then exposes a
fresh `doi:` prefix, which a second normalization strips. -/
theorem C5_counterexample :
    normalize_doi (normalize_doi "DOI:10.1/A") ≠ normalize_doi "DOI:10.1/A" := by
  decide

/-- C5 (amended): DOI normalization is idempotent on every input whose
normalized form does not itself start with one of the three recognized
prefixes (equivalently, on every input without a case-variant prefix such as
`DOI:`). -/
theorem C5_amended (s : String)
    (h1 : strStartsWith (normalize_doi s) "https://doi.org/" = false)
    (h2 : strStartsWith (normalize_doi s) "http://doi.org/" = false)
    (h3 : strStartsWith (normalize_doi s) "doi:" = false) :
    normalize_doi (normalize_doi s) = normalize_doi s := by
  have h4 : stripDoiPfx (normalize_doi s) = normalize_doi s :=
    stripDoiPfx_id_of_noPfx _ h1 h2 h3
  show toLowerStr (stripDoiPfx (normalize_doi s)) = normalize_doi s
  rw [h4]
  show toLowerStr (toLowerStr (stripDoiPfx s)) = normalize_doi s
  rw [toLowerStr_idem]
  rfl

/-- C5 witness: the amended idempotence applied at a well-formed DOI input. -/
theorem C5_amended_witness :
    normalize_doi (normalize_doi "doi:10.1145/3292500.3330701") =
      normalize_doi "doi:10.1145/3292500.3330701" :=
  C5_amended "doi:10.1145/3292500.3330701" (by decide) (by decide) (by decide)

/-! ## Claim C7 — resolve_selection on numeric inputs -/

/-- C7: restricted to numeric inputs (`parseUsize input = some i`),
`resolve_selection` returns the i-th name (1-based) for every `i` in
`1..=len`, fails with not-found for `i = 0` and for every `i > len`, and
(when the on-disk names are distinct, as directory listings are) is
injective on `1..=len` — together: a bijection between `1..=len` and the
sorted name list. -/
theorem C7_resolve_selection_numeric (names : List String) (input : String)
    (i : Nat) (hp : parseUsize input = some i) :
    (∀ (_ : 1 ≤ i) (_ : i ≤ names.length),
       resolve_selection names input = Except.ok (names.getD (i - 1) ""))
    ∧ (i = 0 →
       resolve_selection names input =
         Except.error (SelectionError.NotFound input))
    ∧ (names.length < i →
       resolve_selection names input =
         Except.error (SelectionError.NotFound input))
    ∧ (names.Nodup → ∀ (j : Nat) (input2 : String),
       parseUsize input2 = some j →
       1 ≤ i → i ≤ names.length → 1 ≤ j → j ≤ names.length →
       resolve_selection names input = resolve_selection names input2 →
       i = j) := by
  refine ⟨?_, ?_, ?_, ?_⟩
  · intro h1 h2
    unfold resolve_selection
    rw [hp]
    simp only []
    rw [if_neg]
    omega
  · intro h0
    subst h0
    unfold resolve_selection
    rw [hp]
    simp
  · intro hgt
    unfold resolve_selection
    rw [hp]
    simp only []
    rw [if_pos (Or.inr hgt)]
  · intro hnd j input2 hp2 hi1 hi2 hj1 hj2 heq
    have e1 : resolve_selection names input = Except.ok (names.getD (i - 1) "") := by
      unfold resolve_selection
      rw [hp]
      simp only []
      rw [if_neg]
      omega
    have e2 : resolve_selection names input2 = Except.ok (names.getD (j - 1) "") := by
      unfold resolve_selection
      rw [hp2]
      simp only []
      rw [if_neg]
      omega
    rw [e1, e2] at heq
    have hgd : names.getD (i - 1) "" = names.getD (j - 1) "" := by
      injection heq
    have hib : i - 1 < names.length := by omega
    have hjb : j - 1 < names.length := by omega
    rw [List.getD_eq_getElem names "" hib, List.getD_eq_getElem names "" hjb] at hgd
    have := (List.Nodup.getElem_inj_iff hnd).mp hgd
    omega

/-- C7 witness: the numeric-resolution theorem applied at the seed scenario
names, input "2" resolving to the second name. -/
theorem C7_witness :
    resolve_selection ["alpha", "middle", "zebra"] "2" = Except.ok "middle" := by
  have h := (C7_resolve_selection_numeric ["alpha", "middle", "zebra"] "2" 2
    (by decide)).1 (by decide) (by decide)
  rw [h]
  rfl

/-! ## Ingestor (crates/papers-rag/src/ingest.rs) -/

/-- The tag-stripping loop of `strip_html`: remove everything between `<`
and `>`, pushing only characters outside tags. -/
def stripTagsAux : Bool → List Char → List Char
  | _, [] => []
  | inTag, c :: rest =>
    if c = '<' then stripTagsAux true rest
    else if c = '>' then stripTagsAux false rest
    else if inTag then stripTagsAux true rest
    else c :: stripTagsAux false rest

/-- Rust `str::split_whitespace` on a character list (accumulator holds the
current word reversed): maximal runs of non-whitespace characters. -/
def splitWsAux : List Char → List Char → List (List Char)
  | [], cur => if cur.isEmpty then [] else [cur.reverse]
  | c :: rest, cur =>
    if isWsChar c then
      if cur.isEmpty then splitWsAux rest []
      else cur.reverse :: splitWsAux rest []
    else splitWsAux rest (c :: cur)

/-- `strip_html` from ingest.rs: strip HTML tags (no whitespace inserted
between adjacent elements), then normalize whitespace runs to single
spaces. -/
def strip_html (html : String) : String :=
  String.mk (List.intercalate [' '] (splitWsAux (stripTagsAux false html.data) []))

/-- First-occurrence search (Rust `str::find` of a needle): the remainder of
the haystack AFTER the first occurrence of `needle`, or `none`. -/
def findRest (needle : List Char) : List Char → Option (List Char)
  | [] => if needle.isPrefixOf ([] : List Char) then some [] else none
  | c :: t =>
    if needle.isPrefixOf (c :: t) then some ((c :: t).drop needle.length)
    else findRest needle t

/-- `extract_attr` from ingest.rs: the text between `attr="` and the next
`"`. -/
def extract_attr (html attr : String) : Option String :=
  match findRest (attr.data ++ ['=', '\"']) html.data with
  | none => none
  | some rest =>
    if rest.any (fun c => c = '\"') then
      some (String.mk (rest.takeWhile (fun c => c ≠ '\"')))
    else none

/-- `extract_img_src` from ingest.rs. -/
def extract_img_src (html : String) : Option String :=
  extract_attr html "src"

/-- `extract_img_alt` from ingest.rs. -/
def extract_img_alt (html : String) : Option String :=
  extract_attr html "alt"

/-- A layout-analysis block as consumed by `ingest_paper`: the JSON fields it
reads (`block_type`, `id`, `html`, `page`), each optional as in the raw
document. -/
structure MarkerBlock where
  block_type : Option String
  id : Option String
  html : Option String
  page : Option Nat
deriving DecidableEq, Repr

/-- A page of the layout-analysis document (`children[*]` of the root); its
`children` are the blocks. -/
structure MarkerPage where
  children : Option (List MarkerBlock)
deriving DecidableEq, Repr

/-- `ChunkRecord` from ingest.rs. -/
structure ChunkRecord where
  chunk_id : String
  chapter_title : String
  chapter_idx : Nat
  section_title : String
  section_idx : Nat
  chunk_idx : Nat
  text : String
  page : Option Nat
  figure_ids : List String
deriving DecidableEq, Repr

/-- `FigureRecord` from ingest.rs. -/
structure FigureRecord where
  figure_id : String
  figure_type : String
  caption : String
  image_path : Option String
  page : Option Nat
  chapter_idx : Nat
  section_idx : Nat
deriving DecidableEq, Repr

/-- The fields of `IngestParams` consumed by the block walk (`title`,
`authors`, `year`, `venue`, `tags`, `item_key` are only copied verbatim into
every row of the insert batch and are omitted here). `cache_dir` is a path
string; `PathBuf::join` is modelled as `/`-concatenation. -/
structure IngestParams where
  paper_id : String
  cache_dir : String
deriving DecidableEq, Repr

/-- Heading-level determination of the `SectionHeader` branch of
`ingest_paper` (ingest.rs lines 222-234): the HTML tag is authoritative;
`h6` and any unknown or missing tag map to level 6. -/
def hLevelOf (html : String) : Nat :=
  if strStartsWith html "<h1" || strStartsWith html "<H1" then 1
  else if strStartsWith html "<h2" || strStartsWith html "<H2" then 2
  else if strStartsWith html "<h3" || strStartsWith html "<H3" then 3
  else if strStartsWith html "<h4" || strStartsWith html "<H4" then 4
  else if strStartsWith html "<h5" || strStartsWith html "<H5" then 5
  else 6

/-- The heading map of `ingest_paper` (ingest.rs lines 171-187): block id to
HTML-stripped heading text, over the `SectionHeader` blocks carrying an id.
`HashMap::insert` keeps the last binding for a duplicated id, so the lookup
returns the last matching block's text. -/
def headingLookup (blocks : List MarkerBlock) (bid : String) : Option String :=
  ((blocks.filter (fun b =>
      b.block_type.getD "" == "SectionHeader" && b.id == some bid)).getLast?).map
    (fun b => strip_html (b.html.getD ""))

/-- The mutable state of the block walk of `ingest_paper` (ingest.rs lines
190-201), together with the records accumulated so far. -/
structure WalkState where
  chapter_idx : Nat
  section_idx : Nat
  current_chapter_title : String
  current_section_title : String
  chunk_idx : Nat
  figure_seq : Nat
  last_section_key : Nat × Nat
  chunks : List ChunkRecord
  figures : List FigureRecord
deriving DecidableEq, Repr

/-- Initial walk state: all counters 0, both titles empty. -/
def initWalkState : WalkState :=
  { chapter_idx := 0, section_idx := 0, current_chapter_title := "",
    current_section_title := "", chunk_idx := 0, figure_seq := 0,
    last_section_key := (0, 0), chunks := [], figures := [] }

/-- The discarded block types (ingest.rs lines 215-216). -/
def isSkippedType (t : String) : Bool :=
  t == "Page" || t == "PageHeader" || t == "PageFooter" ||
  t == "TableOfContents" || t == "Caption" || t == "Picture"

/-- The chunk-emitting block types (ingest.rs line 267). -/
def isTextType (t : String) : Bool :=
  t == "Text" || t == "ListGroup" || t == "Equation"

/-- The chunk identifier format of ingest.rs line 284. -/
def mkChunkId (paper_id : String) (c s k : Nat) : String :=
  paper_id ++ "/ch" ++ Nat.repr c ++ "/s" ++ Nat.repr s ++ "/p" ++ Nat.repr k

/-- The figure identifier format of ingest.rs line 323. -/
def mkFigureId (paper_id : String) (n : Nat) : String :=
  paper_id ++ "/fig" ++ Nat.repr n

/-- One iteration of the block walk of `ingest_paper` (ingest.rs lines
203-337). -/
def stepBlock (params : IngestParams) (hmap : String → Option String)
    (s : WalkState) (b : MarkerBlock) : WalkState :=
  let block_type := b.block_type.getD ""
  let block_id := b.id.getD ""
  let page_num := b.page
  if isSkippedType block_type then s
  else if block_type == "SectionHeader" then
    let html := b.html.getD ""
    let lvl := hLevelOf html
    if lvl = 2 then
      { s with chapter_idx := s.chapter_idx + 1,
               section_idx := 0,
               chunk_idx := 0,
               current_chapter_title := (hmap block_id).getD "",
               current_section_title := "",
               last_section_key := (s.chapter_idx + 1, 0) }
    else if lvl = 3 ∨ lvl = 4 then
      { s with section_idx := s.section_idx + 1,
               chunk_idx := 0,
               current_section_title := (hmap block_id).getD "",
               last_section_key := (s.chapter_idx, s.section_idx + 1) }
    else s
  else if isTextType block_type then
    let text := strip_html (b.html.getD "")
    if trimStr text == "" then s
    else
      let section_key := (s.chapter_idx, s.section_idx)
      let ci := if section_key ≠ s.last_section_key then 0 else s.chunk_idx
      { s with chunk_idx := ci + 1,
               last_section_key := section_key,
               chunks := s.chunks ++
                 [{ chunk_id := mkChunkId params.paper_id s.chapter_idx s.section_idx ci,
                    chapter_title := s.current_chapter_title,
                    chapter_idx := s.chapter_idx,
                    section_title := s.current_section_title,
                    section_idx := s.section_idx,
                    chunk_idx := ci,
                    text := text,
                    page := page_num,
                    figure_ids := [] }] }
  else if block_type == "Figure" || block_type == "Table" then
    let html := b.html.getD ""
    let caption := (extract_img_alt html).getD ""
    let src := extract_img_src html
    let image_path := src.map (fun n => params.cache_dir ++ "/images/" ++ n)
    let figure_type := if block_type == "Table" then "table" else "figure"
    { s with figure_seq := s.figure_seq + 1,
             figures := s.figures ++
               [{ figure_id := mkFigureId params.paper_id (s.figure_seq + 1),
                  figure_type := figure_type,
                  caption := caption,
                  image_path := image_path,
                  page := page_num,
                  chapter_idx := s.chapter_idx,
                  section_idx := s.section_idx }] }
  else s

/-- Flattening of the layout-analysis document (`children[*].children[*]`,
ingest.rs lines 148-161); pages without a `children` array contribute
nothing. -/
def flattenBlocks (pages : List MarkerPage) : List MarkerBlock :=
  (pages.map (fun p => p.children.getD [])).flatten

/-- The pure core of `ingest_paper`: flatten the pages, build the heading
map, walk the blocks. The resulting state carries the chunk and figure
records that the function embeds and inserts. -/
def ingest_paper (params : IngestParams) (pages : List MarkerPage) : WalkState :=
  (flattenBlocks pages).foldl
    (stepBlock params (headingLookup (flattenBlocks pages))) initWalkState

/-! ## Query engine (crates/papers-rag/src/query.rs) -/

/-- A stored row of the chunks table, projected to the columns that
`position_context` reads. -/
structure ChunkRow where
  paper_id : String
  chapter_idx : Nat
  section_idx : Nat
  chunk_idx : Nat
deriving DecidableEq, Repr

/-- `PositionContext` from crates/papers-rag/src/types.rs. -/
structure PositionContext where
  total_chunks_in_section : Nat
  total_sections_in_chapter : Nat
  total_chapters_in_paper : Nat
  is_first_in_section : Bool
  is_last_in_section : Bool
deriving DecidableEq, Repr

/-- `position_context` from query.rs (lines 248-317), with the chunks table
modelled as the list of its rows: count of rows in the section, number of
distinct `section_idx` in the chapter (a `HashSet` cardinality, modelled by
`dedup`), number of distinct `chapter_idx` in the paper, and the two
first/last flags. -/
def position_context (table : List ChunkRow) (paper_id : String)
    (chapter_idx section_idx chunk_idx : Nat) : PositionContext :=
  let section_rows := table.filter (fun r =>
    r.paper_id == paper_id && r.chapter_idx == chapter_idx &&
      r.section_idx == section_idx)
  let total_in_section := section_rows.length
  let chapter_rows := table.filter (fun r =>
    r.paper_id == paper_id && r.chapter_idx == chapter_idx)
  let total_sections := ((chapter_rows.map (fun r => r.section_idx)).dedup).length
  let paper_rows := table.filter (fun r => r.paper_id == paper_id)
  let total_chapters := ((paper_rows.map (fun r => r.chapter_idx)).dedup).length
  { total_chunks_in_section := total_in_section,
    total_sections_in_chapter := total_sections,
    total_chapters_in_paper := total_chapters,
    is_first_in_section := chunk_idx == 0,
    is_last_in_section := decide (total_in_section ≤ chunk_idx + 1) }

/-- A stored row of the figures table, projected to the columns that
`resolve_figures` selects. -/
structure FigureRow where
  figure_id : String
  figure_type : String
  caption : String
  description : String
deriving DecidableEq, Repr

/-- `ReferencedFigure` from crates/papers-rag/src/types.rs. -/
structure ReferencedFigure where
  figure_id : String
  figure_type : String
  caption : String
  description : String
deriving DecidableEq, Repr

/-- `resolve_figures` from query.rs (lines 206-246): empty id list short-
circuits to an empty result; otherwise the rows whose `figure_id` is in the
list, projected to the four result columns. -/
def resolve_figures (figures_table : List FigureRow) (figure_ids : List String) :
    List ReferencedFigure :=
  if figure_ids.isEmpty then []
  else
    (figures_table.filter (fun r => figure_ids.contains r.figure_id)).map
      (fun r =>
        { figure_id := r.figure_id, figure_type := r.figure_type,
          caption := r.caption, description := r.description })

/-! ## Case analysis of the block walk -/

/-- A block taking the `h2` (new chapter) branch of the walk. -/
def isH2Block (b : MarkerBlock) : Bool :=
  b.block_type.getD "" == "SectionHeader" && hLevelOf (b.html.getD "") == 2

/-- A block taking the `h3`/`h4` (new section) branch of the walk. -/
def isH34Block (b : MarkerBlock) : Bool :=
  b.block_type.getD "" == "SectionHeader" &&
    (hLevelOf (b.html.getD "") == 3 || hLevelOf (b.html.getD "") == 4)

/-- A block that emits a chunk: text-typed with nonempty stripped text. -/
def isTextEmitBlock (b : MarkerBlock) : Bool :=
  isTextType (b.block_type.getD "") &&
    !(trimStr (strip_html (b.html.getD "")) == "")

/-- A block that emits a figure record. -/
def isFigTabBlock (b : MarkerBlock) : Bool :=
  b.block_type.getD "" == "Figure" || b.block_type.getD "" == "Table"

/-- The chunk index used by a text emission: reset to 0 when the section key
changed since the last emission or heading, else the running counter. -/
def textEmitCi (s : WalkState) : Nat :=
  if (s.chapter_idx, s.section_idx) ≠ s.last_section_key then 0 else s.chunk_idx

/-- The chunk record emitted for a text block in state `s`. -/
def textChunkRecord (params : IngestParams) (s : WalkState) (b : MarkerBlock) :
    ChunkRecord :=
  { chunk_id := mkChunkId params.paper_id s.chapter_idx s.section_idx (textEmitCi s),
    chapter_title := s.current_chapter_title,
    chapter_idx := s.chapter_idx,
    section_title := s.current_section_title,
    section_idx := s.section_idx,
    chunk_idx := textEmitCi s,
    text := strip_html (b.html.getD ""),
    page := b.page,
    figure_ids := [] }

/-- The figure record emitted for a `Figure`/`Table` block in state `s`. -/
def figRecordOf (params : IngestParams) (s : WalkState) (b : MarkerBlock) :
    FigureRecord :=
  { figure_id := mkFigureId params.paper_id (s.figure_seq + 1),
    figure_type := if b.block_type.getD "" == "Table" then "table" else "figure",
    caption := (extract_img_alt (b.html.getD "")).getD "",
    image_path := (extract_img_src (b.html.getD "")).map
      (fun n => params.cache_dir ++ "/images/" ++ n),
    page := b.page,
    chapter_idx := s.chapter_idx,
    section_idx := s.section_idx }

theorem hLevelOf_cases (h : String) :
    hLevelOf h = 1 ∨ hLevelOf h = 2 ∨ hLevelOf h = 3 ∨ hLevelOf h = 4 ∨
      hLevelOf h = 5 ∨ hLevelOf h = 6 := by
  unfold hLevelOf
  split_ifs <;> simp

/-- Every step of the block walk is one of five actions: no-op, new chapter,
new section, chunk emission, figure emission. -/
theorem stepBlock_cases (params : IngestParams) (hmap : String → Option String)
    (s : WalkState) (b : MarkerBlock) :
    (isH2Block b = false ∧ isH34Block b = false ∧ isTextEmitBlock b = false ∧
      isFigTabBlock b = false ∧ stepBlock params hmap s b = s)
  ∨ (isH2Block b = true ∧ isH34Block b = false ∧ isTextEmitBlock b = false ∧
      isFigTabBlock b = false ∧
      stepBlock params hmap s b =
        { s with chapter_idx := s.chapter_idx + 1, section_idx := 0,
                 chunk_idx := 0,
                 current_chapter_title := (hmap (b.id.getD "")).getD "",
                 current_section_title := "",
                 last_section_key := (s.chapter_idx + 1, 0) })
  ∨ (isH2Block b = false ∧ isH34Block b = true ∧ isTextEmitBlock b = false ∧
      isFigTabBlock b = false ∧
      stepBlock params hmap s b =
        { s with section_idx := s.section_idx + 1, chunk_idx := 0,
                 current_section_title := (hmap (b.id.getD "")).getD "",
                 last_section_key := (s.chapter_idx, s.section_idx + 1) })
  ∨ (isH2Block b = false ∧ isH34Block b = false ∧ isTextEmitBlock b = true ∧
      isFigTabBlock b = false ∧
      stepBlock params hmap s b =
        { s with chunk_idx := textEmitCi s + 1,
                 last_section_key := (s.chapter_idx, s.section_idx),
                 chunks := s.chunks ++ [textChunkRecord params s b] })
  ∨ (isH2Block b = false ∧ isH34Block b = false ∧ isTextEmitBlock b = false ∧
      isFigTabBlock b = true ∧
      stepBlock params hmap s b =
        { s with figure_seq := s.figure_seq + 1,
                 figures := s.figures ++ [figRecordOf params s b] }) := by
  by_cases hsk : isSkippedType (b.block_type.getD "") = true
  · left
    have hbt := hsk
    simp only [isSkippedType, Bool.or_eq_true, beq_iff_eq] at hbt
    rcases hbt with ((((h | h) | h) | h) | h) | h <;>
      refine ⟨?_, ?_, ?_, ?_, ?_⟩ <;>
        simp [isH2Block, isH34Block, isTextEmitBlock, isFigTabBlock, isTextType,
          stepBlock, isSkippedType, h]
  · by_cases hsh : b.block_type.getD "" = "SectionHeader"
    · rcases hLevelOf_cases (b.html.getD "") with hl | hl | hl | hl | hl | hl
      · left
        refine ⟨?_, ?_, ?_, ?_, ?_⟩ <;>
          simp [isH2Block, isH34Block, isTextEmitBlock, isFigTabBlock,
            isTextType, stepBlock, isSkippedType, hsh, hl]
      · right
        left
        refine ⟨?_, ?_, ?_, ?_, ?_⟩ <;>
          simp [isH2Block, isH34Block, isTextEmitBlock, isFigTabBlock,
            isTextType, stepBlock, isSkippedType, hsh, hl]
      · right
        right
        left
        refine ⟨?_, ?_, ?_, ?_, ?_⟩ <;>
          simp [isH2Block, isH34Block, isTextEmitBlock, isFigTabBlock,
            isTextType, stepBlock, isSkippedType, hsh, hl]
      · right
        right
        left
        refine ⟨?_, ?_, ?_, ?_, ?_⟩ <;>
          simp [isH2Block, isH34Block, isTextEmitBlock, isFigTabBlock,
            isTextType, stepBlock, isSkippedType, hsh, hl]
      · left
        refine ⟨?_, ?_, ?_, ?_, ?_⟩ <;>
          simp [isH2Block, isH34Block, isTextEmitBlock, isFigTabBlock,
            isTextType, stepBlock, isSkippedType, hsh, hl]
      · left
        refine ⟨?_, ?_, ?_, ?_, ?_⟩ <;>
          simp [isH2Block, isH34Block, isTextEmitBlock, isFigTabBlock,
            isTextType, stepBlock, isSkippedType, hsh, hl]
    · by_cases htt : isTextType (b.block_type.getD "") = true
      · have hbt := htt
        simp only [isTextType, Bool.or_eq_true, beq_iff_eq] at hbt
        by_cases hemp : (trimStr (strip_html (b.html.getD "")) == "") = true
        · left
          rcases hbt with (h | h) | h <;>
            refine ⟨?_, ?_, ?_, ?_, ?_⟩ <;>
              simp [isH2Block, isH34Block, isTextEmitBlock, isFigTabBlock,
                isTextType, stepBlock, isSkippedType, h, hemp]
        · right
          right
          right
          left
          rcases hbt with (h | h) | h <;>
            refine ⟨?_, ?_, ?_, ?_, ?_⟩ <;>
              simp [isH2Block, isH34Block, isTextEmitBlock, isFigTabBlock,
                isTextType, stepBlock, isSkippedType, h, hemp, textEmitCi,
                textChunkRecord]
      · by_cases hft : isFigTabBlock b = true
        · right
          right
          right
          right
          have hbt := hft
          simp only [isFigTabBlock, Bool.or_eq_true, beq_iff_eq] at hbt
          rcases hbt with h | h <;>
            refine ⟨?_, ?_, ?_, ?_, ?_⟩ <;>
              simp [isH2Block, isH34Block, isTextEmitBlock, isFigTabBlock,
                isTextType, stepBlock, isSkippedType, h, figRecordOf]
        · left
          have hsk' : isSkippedType (b.block_type.getD "") = false := by
            revert hsk
            cases isSkippedType (b.block_type.getD "") <;> simp
          have htt' : isTextType (b.block_type.getD "") = false := by
            revert htt
            cases isTextType (b.block_type.getD "") <;> simp
          have hft' : isFigTabBlock b = false := by
            revert hft
            cases isFigTabBlock b <;> simp
          have hft2 := hft'
          simp only [isFigTabBlock, Bool.or_eq_false_iff, beq_eq_false_iff_ne] at hft2
          refine ⟨?_, ?_, ?_, ?_, ?_⟩ <;>
            simp [isH2Block, isH34Block, isTextEmitBlock, isFigTabBlock,
              stepBlock, hsk', htt', hsh, hft2.1, hft2.2]

/-- Fold-invariant principle for the block walk. -/
theorem foldl_stepBlock_inv (params : IngestParams) (hmap : String → Option String)
    {P : WalkState → Prop}
    (hstep : ∀ s b, P s → P (stepBlock params hmap s b)) :
    ∀ (blocks : List MarkerBlock) (s : WalkState), P s →
      P (blocks.foldl (stepBlock params hmap) s)
  | [], _, h => h
  | b :: bs, s, h =>
    foldl_stepBlock_inv params hmap hstep bs (stepBlock params hmap s b) (hstep s b h)

/-! ## Shared concrete inputs (the seed scenarios of the specification) -/

/-- Ingest parameters of the concrete scenarios. -/
def sampleParams : IngestParams :=
  { paper_id := "P", cache_dir := "/cache/P" }

/-- The heading-parsing seed scenario: h1, h6, h2, text, h3, text, h2, text. -/
def samplePages : List MarkerPage :=
  [{ children := some
      [{ block_type := some "SectionHeader", id := some "b1",
         html := some "<h1>Title</h1>", page := some 1 },
       { block_type := some "SectionHeader", id := some "b2",
         html := some "<h6>ACM Ref</h6>", page := some 1 },
       { block_type := some "SectionHeader", id := some "b3",
         html := some "<h2>1 INTRODUCTION</h2>", page := some 1 },
       { block_type := some "Text", id := none,
         html := some "<p>Intro.</p>", page := some 1 },
       { block_type := some "SectionHeader", id := some "b4",
         html := some "<h3>1.1 Motivation</h3>", page := some 1 },
       { block_type := some "Text", id := none,
         html := some "<p>M.</p>", page := some 1 },
       { block_type := some "SectionHeader", id := some "b5",
         html := some "<h2>2 RELATED WORK</h2>", page := some 1 },
       { block_type := some "Text", id := none,
         html := some "<p>R.</p>", page := some 1 }] }]

/-- The figure-numbering seed scenario: Figure, Caption (skipped), Table. -/
def figPages : List MarkerPage :=
  [{ children := some
      [{ block_type := some "Figure", id := some "f1",
         html := some "<img src=\"f1.jpg\" alt=\"Figure 1: A diagram\"/>",
         page := some 1 },
       { block_type := some "Caption", id := some "c1",
         html := some "<p>cap</p>", page := some 1 },
       { block_type := some "Table", id := some "t1",
         html := some "<img src=\"t1.png\" alt=\"Table 1: Results\"/>",
         page := some 2 }] }]

/-- A document whose second chapter contains no chunk-emitting block: two
consecutive h2 headings, then one text block. -/
def gapPages : List MarkerPage :=
  [{ children := some
      [{ block_type := some "SectionHeader", id := some "a",
         html := some "<h2>A</h2>", page := none },
       { block_type := some "SectionHeader", id := some "b",
         html := some "<h2>B</h2>", page := none },
       { block_type := some "Text", id := none,
         html := some "<p>x</p>", page := none }] }]

/-! ## Claim C1 — SectionHeader state transitions -/

/-- C1: in the structure-recovery pass, a `SectionHeader` block updates the
walk state exactly as the heading-to-structure map prescribes, the heading
level being `hLevelOf` of the block's HTML: level 2 increments `chapter_idx`,
resets `section_idx` and `chunk_idx` to 0, records the heading-map text as
the chapter title and clears the section title; levels 3 and 4 increment
`section_idx`, reset `chunk_idx` to 0 and record the section title; levels
1, 5 and 6 (the latter also covering any unknown or missing tag) change
nothing; and the walk starts from `chapter_idx = section_idx = chunk_idx = 0`
with both titles empty. -/
theorem C1_section_header_transitions (params : IngestParams)
    (hmap : String → Option String) (s : WalkState) (b : MarkerBlock)
    (hb : b.block_type.getD "" = "SectionHeader") :
    (initWalkState.chapter_idx = 0 ∧ initWalkState.section_idx = 0 ∧
     initWalkState.chunk_idx = 0 ∧ initWalkState.current_chapter_title = "" ∧
     initWalkState.current_section_title = "")
    ∧ (hLevelOf (b.html.getD "") = 2 →
        stepBlock params hmap s b =
          { s with chapter_idx := s.chapter_idx + 1, section_idx := 0,
                   chunk_idx := 0,
                   current_chapter_title := (hmap (b.id.getD "")).getD "",
                   current_section_title := "",
                   last_section_key := (s.chapter_idx + 1, 0) })
    ∧ (hLevelOf (b.html.getD "") = 3 ∨ hLevelOf (b.html.getD "") = 4 →
        stepBlock params hmap s b =
          { s with section_idx := s.section_idx + 1, chunk_idx := 0,
                   current_section_title := (hmap (b.id.getD "")).getD "",
                   last_section_key := (s.chapter_idx, s.section_idx + 1) })
    ∧ (hLevelOf (b.html.getD "") = 1 ∨ hLevelOf (b.html.getD "") = 5 ∨
        hLevelOf (b.html.getD "") = 6 →
        stepBlock params hmap s b = s) := by
  refine ⟨⟨rfl, rfl, rfl, rfl, rfl⟩, ?_, ?_, ?_⟩
  · intro hl
    simp [stepBlock, hb, hl, isSkippedType]
  · intro hl
    rcases hl with hl | hl <;> simp [stepBlock, hb, hl, isSkippedType]
  · intro hl
    rcases hl with hl | hl | hl <;> simp [stepBlock, hb, hl, isSkippedType]

/-- C1 witness: an h2 header block applied to the initial state. -/
theorem C1_witness :
    stepBlock sampleParams (fun _ => some "T") initWalkState
      { block_type := some "SectionHeader", id := some "x",
        html := some "<h2>A</h2>", page := none } =
      { initWalkState with chapter_idx := 1, chunk_idx := 0,
                           current_chapter_title := "T",
                           current_section_title := "",
                           last_section_key := (1, 0) } := by
  have h := (C1_section_header_transitions sampleParams (fun _ => some "T")
    initWalkState
    { block_type := some "SectionHeader", id := some "x",
      html := some "<h2>A</h2>", page := none } rfl).2.1 (by decide)
  rw [h]
  decide

/-! ## Claim C2 — per-section chunk index contiguity -/

/-- The chunk indices recorded for section coordinate `(c, sec)`, in emission
order. -/
def chunkIdxsFor (chunks : List ChunkRecord) (c sec : Nat) : List Nat :=
  (chunks.filter (fun r => decide (r.chapter_idx = c ∧ r.section_idx = sec))).map
    (fun r => r.chunk_idx)

theorem chunkIdxsFor_append (xs : List ChunkRecord) (r : ChunkRecord)
    (c sec : Nat) :
    chunkIdxsFor (xs ++ [r]) c sec =
      chunkIdxsFor xs c sec ++
        (if r.chapter_idx = c ∧ r.section_idx = sec then [r.chunk_idx] else []) := by
  by_cases h : r.chapter_idx = c ∧ r.section_idx = sec <;>
    simp [chunkIdxsFor, List.filter_append, h]

theorem chunkIdxsFor_nil_of_gt (chunks : List ChunkRecord) (C S c sec : Nat)
    (hord : ∀ r ∈ chunks,
      r.chapter_idx < C ∨ (r.chapter_idx = C ∧ r.section_idx ≤ S))
    (hgt : C < c ∨ (C = c ∧ S < sec)) :
    chunkIdxsFor chunks c sec = [] := by
  unfold chunkIdxsFor
  rw [List.filter_eq_nil_iff.mpr, List.map_nil]
  intro r hr
  have h := hord r hr
  simp only [decide_eq_true_eq]
  omega

/-- The inductive invariant of the block walk: the cached section key always
equals the current coordinates, recorded chunks never lie at a coordinate
beyond the current one (lexicographically), every coordinate's chunk indices
form the initial segment `0, 1, …` in emission order, and the running
`chunk_idx` counts the chunks of the current coordinate. -/
def walkInv (s : WalkState) : Prop :=
  s.last_section_key = (s.chapter_idx, s.section_idx)
  ∧ (∀ r ∈ s.chunks, r.chapter_idx < s.chapter_idx ∨
      (r.chapter_idx = s.chapter_idx ∧ r.section_idx ≤ s.section_idx))
  ∧ (∀ c sec, chunkIdxsFor s.chunks c sec =
      List.range (chunkIdxsFor s.chunks c sec).length)
  ∧ (chunkIdxsFor s.chunks s.chapter_idx s.section_idx).length = s.chunk_idx

theorem walkInv_init : walkInv initWalkState :=
  ⟨rfl, fun r hr => absurd hr (List.not_mem_nil r), fun _ _ => rfl, rfl⟩

theorem walkInv_step (params : IngestParams) (hmap : String → Option String)
    (s : WalkState) (b : MarkerBlock) (h : walkInv s) :
    walkInv (stepBlock params hmap s b) := by
  obtain ⟨h1, h2, h3, h4⟩ := h
  rcases stepBlock_cases params hmap s b with
    ⟨_, _, _, _, he⟩ | ⟨_, _, _, _, he⟩ | ⟨_, _, _, _, he⟩ |
      ⟨_, _, _, _, he⟩ | ⟨_, _, _, _, he⟩ <;> rw [he]
  · exact ⟨h1, h2, h3, h4⟩
  · -- new chapter
    refine ⟨rfl, ?_, h3, ?_⟩
    · intro r hr
      have := h2 r hr
      simp only []
      omega
    · show (chunkIdxsFor s.chunks (s.chapter_idx + 1) 0).length = 0
      rw [chunkIdxsFor_nil_of_gt s.chunks s.chapter_idx s.section_idx _ _ h2
        (Or.inl (Nat.lt_succ_self _))]
      rfl
  · -- new section
    refine ⟨rfl, ?_, h3, ?_⟩
    · intro r hr
      have := h2 r hr
      simp only []
      omega
    · show (chunkIdxsFor s.chunks s.chapter_idx (s.section_idx + 1)).length = 0
      rw [chunkIdxsFor_nil_of_gt s.chunks s.chapter_idx s.section_idx _ _ h2
        (Or.inr ⟨rfl, Nat.lt_succ_self _⟩)]
      rfl
  · -- chunk emission
    have hci : textEmitCi s = s.chunk_idx := by
      simp [textEmitCi, h1]
    refine ⟨rfl, ?_, ?_, ?_⟩
    · intro r hr
      simp only [] at hr
      rw [List.mem_append] at hr
      rcases hr with hr | hr
      · have := h2 r hr
        show r.chapter_idx < s.chapter_idx ∨
          (r.chapter_idx = s.chapter_idx ∧ r.section_idx ≤ s.section_idx)
        omega
      · rw [List.mem_singleton] at hr
        subst hr
        right
        exact ⟨rfl, Nat.le_refl _⟩
    · intro c sec
      show chunkIdxsFor (s.chunks ++ [textChunkRecord params s b]) c sec = _
      rw [chunkIdxsFor_append]
      by_cases hk : (textChunkRecord params s b).chapter_idx = c ∧
          (textChunkRecord params s b).section_idx = sec
      · rw [if_pos hk]
        obtain ⟨hkc, hks⟩ := hk
        simp only [textChunkRecord] at hkc hks
        subst hkc
        subst hks
        have hlen := h4
        have hrange := h3 (textChunkRecord params s b).chapter_idx
          (textChunkRecord params s b).section_idx
        simp only [textChunkRecord] at hrange hlen ⊢
        rw [hrange, hci, ← hlen]
        rw [List.length_append, List.length_range, List.length_singleton]
        rw [List.range_succ]
      · rw [if_neg hk]
        simp only [List.append_nil]
        exact h3 c sec
    · show (chunkIdxsFor (s.chunks ++ [textChunkRecord params s b])
        s.chapter_idx s.section_idx).length = textEmitCi s + 1
      rw [chunkIdxsFor_append, if_pos ⟨rfl, rfl⟩, List.length_append,
        List.length_singleton, h4, hci]
  · -- figure emission
    exact ⟨h1, h2, h3, h4⟩

/-- C2: for every layout-analysis input and every section coordinate
`(c, sec)` that occurs among the emitted chunks, the chunk indices recorded
at that coordinate are, in emission order, exactly `0, 1, …, K-1` with
`K ≥ 1` — in particular their multiset is `{0, 1, …, K-1}`. -/
theorem C2_chunk_idx_contiguous (params : IngestParams)
    (pages : List MarkerPage) (c sec : Nat)
    (hocc : chunkIdxsFor (ingest_paper params pages).chunks c sec ≠ []) :
    chunkIdxsFor (ingest_paper params pages).chunks c sec =
      List.range (chunkIdxsFor (ingest_paper params pages).chunks c sec).length
    ∧ 1 ≤ (chunkIdxsFor (ingest_paper params pages).chunks c sec).length := by
  have hinv : walkInv (ingest_paper params pages) :=
    foldl_stepBlock_inv params (headingLookup (flattenBlocks pages))
      (fun s b h => walkInv_step params _ s b h) (flattenBlocks pages)
      initWalkState walkInv_init
  refine ⟨hinv.2.2.1 c sec, ?_⟩
  have hlen := List.length_pos.mpr hocc
  omega

/-- C2 witness: in the heading-parsing seed scenario, the coordinate (1, 0)
is populated and its chunk indices are `range K` with `K = 1`. -/
theorem C2_witness :
    chunkIdxsFor (ingest_paper sampleParams samplePages).chunks 1 0 ≠ [] ∧
    (chunkIdxsFor (ingest_paper sampleParams samplePages).chunks 1 0 =
      List.range
        (chunkIdxsFor (ingest_paper sampleParams samplePages).chunks 1 0).length
    ∧ 1 ≤ (chunkIdxsFor (ingest_paper sampleParams samplePages).chunks 1 0).length) :=
  ⟨by decide, C2_chunk_idx_contiguous sampleParams samplePages 1 0 (by decide)⟩

/-! ## Claim C3 — chapter index contiguity -/

/-- The number of blocks taking the h2 (new chapter) branch. -/
def countH2 (blocks : List MarkerBlock) : Nat :=
  (blocks.filter isH2Block).length

theorem stepBlock_chapter_idx (params : IngestParams)
    (hmap : String → Option String) (s : WalkState) (b : MarkerBlock) :
    (stepBlock params hmap s b).chapter_idx =
      s.chapter_idx + (if isH2Block b = true then 1 else 0) := by
  rcases stepBlock_cases params hmap s b with
    ⟨hp, _, _, _, he⟩ | ⟨hp, _, _, _, he⟩ | ⟨hp, _, _, _, he⟩ |
      ⟨hp, _, _, _, he⟩ | ⟨hp, _, _, _, he⟩ <;> rw [he] <;> simp [hp]

theorem foldl_chapter_idx (params : IngestParams) (hmap : String → Option String) :
    ∀ (blocks : List MarkerBlock) (s : WalkState),
      (blocks.foldl (stepBlock params hmap) s).chapter_idx =
        s.chapter_idx + countH2 blocks
  | [], s => by simp [countH2]
  | b :: bs, s => by
    rw [List.foldl_cons, foldl_chapter_idx params hmap bs,
      stepBlock_chapter_idx]
    by_cases hb : isH2Block b = true
    · simp only [countH2, List.filter_cons, hb, if_true, List.length_cons]
      omega
    · simp only [countH2, List.filter_cons, hb, if_false, Bool.false_eq_true]
      omega

/-- Chapter indices on recorded chunks are nondecreasing and bounded by the
current chapter counter. -/
def chapterChainInv (s : WalkState) : Prop :=
  List.Chain' (· ≤ ·) (s.chunks.map (fun r => r.chapter_idx))
  ∧ ∀ r ∈ s.chunks, r.chapter_idx ≤ s.chapter_idx

theorem chapterChainInv_step (params : IngestParams)
    (hmap : String → Option String) (s : WalkState) (b : MarkerBlock)
    (h : chapterChainInv s) : chapterChainInv (stepBlock params hmap s b) := by
  obtain ⟨hc, hb2⟩ := h
  rcases stepBlock_cases params hmap s b with
    ⟨_, _, _, _, he⟩ | ⟨_, _, _, _, he⟩ | ⟨_, _, _, _, he⟩ |
      ⟨_, _, _, _, he⟩ | ⟨_, _, _, _, he⟩ <;> rw [he]
  · exact ⟨hc, hb2⟩
  · refine ⟨hc, ?_⟩
    intro r hr
    have := hb2 r hr
    show r.chapter_idx ≤ s.chapter_idx + 1
    omega
  · exact ⟨hc, hb2⟩
  · constructor
    · show List.Chain' (· ≤ ·)
        ((s.chunks ++ [textChunkRecord params s b]).map (fun r => r.chapter_idx))
      rw [List.map_append, List.chain'_append]
      refine ⟨hc, List.chain'_singleton _, ?_⟩
      intro x hx y hy
      simp only [List.map_cons, List.map_nil, List.head?_cons,
        Option.mem_def, Option.some_inj] at hy
      subst hy
      have hx2 := List.mem_of_getLast?_eq_some hx
      rw [List.mem_map] at hx2
      obtain ⟨r, hr, hrx⟩ := hx2
      subst hrx
      exact hb2 r hr
    · intro r hr
      show r.chapter_idx ≤ s.chapter_idx
      rw [List.mem_append] at hr
      rcases hr with hr | hr
      · exact hb2 r hr
      · rw [List.mem_singleton] at hr
        subst hr
        exact Nat.le_refl _
  · exact ⟨hc, hb2⟩

/-- The shape asserted by the claim for the set of chapter indices on
chunks: `{0}`, or `{0, 1, …, M}`, or `{1, …, M}` for some `M`. -/
def chapterSetShapeClaim (l : List Nat) : Prop :=
  (∀ x, x ∈ l ↔ x = 0)
  ∨ (∃ M, ∀ x, x ∈ l ↔ x ≤ M)
  ∨ (∃ M, ∀ x, x ∈ l ↔ (1 ≤ x ∧ x ≤ M))

/-- C3 counterexample: on a document whose chapter 1 contains no
chunk-emitting block (h2, h2, text), the chunks carry chapter set `{2}`,
which is none of the claimed shapes — the chapter indices appearing on
chunks can have gaps. -/
theorem C3_counterexample :
    ¬ chapterSetShapeClaim
      ((ingest_paper sampleParams gapPages).chunks.map (fun r => r.chapter_idx)) := by
  have h2mem : (2 : Nat) ∈
      (ingest_paper sampleParams gapPages).chunks.map (fun r => r.chapter_idx) := by
    decide
  have h1mem : (1 : Nat) ∉
      (ingest_paper sampleParams gapPages).chunks.map (fun r => r.chapter_idx) := by
    decide
  have h0mem : (0 : Nat) ∉
      (ingest_paper sampleParams gapPages).chunks.map (fun r => r.chapter_idx) := by
    decide
  intro hcl
  rcases hcl with h | ⟨M, h⟩ | ⟨M, h⟩
  · have := (h 2).mp h2mem
    omega
  · have hM := (h 2).mp h2mem
    exact h0mem ((h 0).mpr (by omega))
  · have hM := (h 2).mp h2mem
    exact h1mem ((h 1).mpr (by omega))

/-- C3 (amended): the chapter indices on chunks, in emission order, are
monotonically non-decreasing, and each is at most the number of h2 section
headers in the input. Contiguity of the occurring set can fail: a chapter
whose region emits no chunks (for instance two consecutive h2 headings) is
skipped, as `C3_counterexample` shows. -/
theorem C3_amended (params : IngestParams) (pages : List MarkerPage) :
    List.Chain' (· ≤ ·)
      ((ingest_paper params pages).chunks.map (fun r => r.chapter_idx))
    ∧ ∀ r ∈ (ingest_paper params pages).chunks,
        r.chapter_idx ≤ countH2 (flattenBlocks pages) := by
  have hinv : chapterChainInv (ingest_paper params pages) :=
    foldl_stepBlock_inv params (headingLookup (flattenBlocks pages))
      (fun s b h => chapterChainInv_step params _ s b h) (flattenBlocks pages)
      initWalkState ⟨List.chain'_nil, fun r hr => absurd hr (List.not_mem_nil r)⟩
  have hch : (ingest_paper params pages).chapter_idx =
      countH2 (flattenBlocks pages) := by
    unfold ingest_paper
    rw [foldl_chapter_idx]
    show 0 + countH2 (flattenBlocks pages) = countH2 (flattenBlocks pages)
    omega
  exact ⟨hinv.1, fun r hr => hch ▸ hinv.2 r hr⟩

/-! ## Claim C8 — identifier formats -/

/-- Every recorded chunk carries the chunk-id format over its own coordinates
and an empty figure-id list. -/
def chunkFormInv (pid : String) (s : WalkState) : Prop :=
  ∀ r ∈ s.chunks,
    r.chunk_id = mkChunkId pid r.chapter_idx r.section_idx r.chunk_idx ∧
      r.figure_ids = []

theorem chunkFormInv_step (params : IngestParams) (hmap : String → Option String)
    (s : WalkState) (b : MarkerBlock) (h : chunkFormInv params.paper_id s) :
    chunkFormInv params.paper_id (stepBlock params hmap s b) := by
  rcases stepBlock_cases params hmap s b with
    ⟨_, _, _, _, he⟩ | ⟨_, _, _, _, he⟩ | ⟨_, _, _, _, he⟩ |
      ⟨_, _, _, _, he⟩ | ⟨_, _, _, _, he⟩ <;> rw [he]
  · exact h
  · exact h
  · exact h
  · intro r hr
    simp only [] at hr
    rw [List.mem_append] at hr
    rcases hr with hr | hr
    · exact h r hr
    · rw [List.mem_singleton] at hr
      subst hr
      exact ⟨rfl, rfl⟩
  · exact h

/-- The figure counter equals the number of emitted figures, and the j-th
emitted figure (0-based) carries id `{paper_id}/fig{j+1}`. -/
def figureInv (pid : String) (s : WalkState) : Prop :=
  s.figure_seq = s.figures.length
  ∧ ∀ (j : Nat) (hj : j < s.figures.length),
      (s.figures.get ⟨j, hj⟩).figure_id = mkFigureId pid (j + 1)

theorem figureInv_step (params : IngestParams) (hmap : String → Option String)
    (s : WalkState) (b : MarkerBlock) (h : figureInv params.paper_id s) :
    figureInv params.paper_id (stepBlock params hmap s b) := by
  obtain ⟨h1, h2⟩ := h
  rcases stepBlock_cases params hmap s b with
    ⟨_, _, _, _, he⟩ | ⟨_, _, _, _, he⟩ | ⟨_, _, _, _, he⟩ |
      ⟨_, _, _, _, he⟩ | ⟨_, _, _, _, he⟩ <;> rw [he]
  · exact ⟨h1, h2⟩
  · exact ⟨h1, h2⟩
  · exact ⟨h1, h2⟩
  · exact ⟨h1, h2⟩
  · refine ⟨?_, ?_⟩
    · show s.figure_seq + 1 = (s.figures ++ [figRecordOf params s b]).length
      rw [List.length_append, List.length_singleton]
      omega
    · intro j hj
      show ((s.figures ++ [figRecordOf params s b]).get ⟨j, hj⟩).figure_id = _
      rw [List.get_eq_getElem]
      have hj2 : j < s.figures.length + 1 := by
        have := hj
        simp only [List.length_append, List.length_singleton] at this
        exact this
      by_cases hjl : j < s.figures.length
      · rw [List.getElem_append_left hjl]
        have hold := h2 j hjl
        rw [List.get_eq_getElem] at hold
        exact hold
      · have hj3 : j = s.figures.length := by omega
        subst hj3
        rw [List.getElem_concat_length]
        · show (figRecordOf params s b).figure_id =
            mkFigureId params.paper_id (s.figures.length + 1)
          simp [figRecordOf, h1]
        · rfl

/-- The emitted figure types, in order, match the `Figure`/`Table` blocks of
the input, in order. -/
theorem stepBlock_figTypes (params : IngestParams) (hmap : String → Option String)
    (s : WalkState) (b : MarkerBlock) :
    (stepBlock params hmap s b).figures.map (fun f => f.figure_type) =
      s.figures.map (fun f => f.figure_type) ++
        (if isFigTabBlock b = true
          then [if b.block_type.getD "" == "Table" then "table" else "figure"]
          else []) := by
  rcases stepBlock_cases params hmap s b with
    ⟨_, _, _, hp, he⟩ | ⟨_, _, _, hp, he⟩ | ⟨_, _, _, hp, he⟩ |
      ⟨_, _, _, hp, he⟩ | ⟨_, _, _, hp, he⟩ <;> rw [he] <;>
    simp [hp, figRecordOf]

theorem foldl_figTypes (params : IngestParams) (hmap : String → Option String) :
    ∀ (blocks : List MarkerBlock) (s : WalkState),
      ((blocks.foldl (stepBlock params hmap) s).figures.map
        (fun f => f.figure_type)) =
        s.figures.map (fun f => f.figure_type) ++
          (blocks.filter isFigTabBlock).map
            (fun b => if b.block_type.getD "" == "Table" then "table" else "figure")
  | [], s => by simp
  | b :: bs, s => by
    rw [List.foldl_cons, foldl_figTypes params hmap bs, stepBlock_figTypes]
    by_cases hb : isFigTabBlock b = true
    · simp [List.filter_cons, hb]
    · simp [List.filter_cons, hb]

/-- C8: the ingestor's identifiers have the bit-exact external formats —
every emitted chunk's id is `paper_id ++ "/ch" ++ c ++ "/s" ++ s ++ "/p" ++ k`
over its own decimal unpadded indices, the j-th emitted figure (0-based) has
id `paper_id ++ "/fig" ++ (j+1)` — a per-paper sequence starting at 1 — and
the figure types, in emission order, are exactly `table` for the `Table`
blocks and `figure` for the `Figure` blocks of the input, in input order
(so the sequence is counted across both kinds combined). -/
theorem C8_identifier_formats (params : IngestParams) (pages : List MarkerPage) :
    (∀ r ∈ (ingest_paper params pages).chunks,
       r.chunk_id = params.paper_id ++ "/ch" ++ Nat.repr r.chapter_idx ++
         "/s" ++ Nat.repr r.section_idx ++ "/p" ++ Nat.repr r.chunk_idx)
    ∧ (∀ (j : Nat) (hj : j < (ingest_paper params pages).figures.length),
       ((ingest_paper params pages).figures.get ⟨j, hj⟩).figure_id =
         params.paper_id ++ "/fig" ++ Nat.repr (j + 1))
    ∧ ((ingest_paper params pages).figures.map (fun f => f.figure_type) =
       ((flattenBlocks pages).filter isFigTabBlock).map
         (fun b => if b.block_type.getD "" == "Table" then "table" else "figure")) := by
  have hc : chunkFormInv params.paper_id (ingest_paper params pages) :=
    foldl_stepBlock_inv params (headingLookup (flattenBlocks pages))
      (fun s b h => chunkFormInv_step params _ s b h) (flattenBlocks pages)
      initWalkState (fun r hr => absurd hr (List.not_mem_nil r))
  have hf : figureInv params.paper_id (ingest_paper params pages) :=
    foldl_stepBlock_inv params (headingLookup (flattenBlocks pages))
      (fun s b h => figureInv_step params _ s b h) (flattenBlocks pages)
      initWalkState ⟨rfl, fun j hj => absurd hj (by simp [initWalkState])⟩
  refine ⟨fun r hr => (hc r hr).1, hf.2, ?_⟩
  unfold ingest_paper
  rw [foldl_figTypes]
  rfl

/-- C8 witness: in the figure seed scenario the first figure id is
`P/fig1`. -/
theorem C8_witness :
    ((ingest_paper sampleParams figPages).figures.get ⟨0, by decide⟩).figure_id =
      "P" ++ "/fig" ++ Nat.repr 1 :=
  (C8_identifier_formats sampleParams figPages).2.1 0 (by decide)

/-! ## Claim C10 — chunks never reference figures -/

/-- C10: every chunk record produced by the ingestor has an empty
`figure_ids` list, and consequently the query engine's referenced-figure
resolution returns the empty list for every such chunk against any state of
the figures table — so the `referenced_figures` of every enriched result
built from these chunks is empty. -/
theorem C10_empty_figure_ids (params : IngestParams) (pages : List MarkerPage)
    (ftbl : List FigureRow) :
    (∀ r ∈ (ingest_paper params pages).chunks, r.figure_ids = [])
    ∧ (∀ r ∈ (ingest_paper params pages).chunks,
        resolve_figures ftbl r.figure_ids = []) := by
  have hc : chunkFormInv params.paper_id (ingest_paper params pages) :=
    foldl_stepBlock_inv params (headingLookup (flattenBlocks pages))
      (fun s b h => chunkFormInv_step params _ s b h) (flattenBlocks pages)
      initWalkState (fun r hr => absurd hr (List.not_mem_nil r))
  refine ⟨fun r hr => (hc r hr).2, fun r hr => ?_⟩
  rw [(hc r hr).2]
  rfl

/-- C10 witness: the first chunk of the heading seed scenario has no figure
ids. -/
theorem C10_witness :
    ({ chunk_id := "P/ch1/s0/p0", chapter_title := "1 INTRODUCTION",
       chapter_idx := 1, section_title := "", section_idx := 0, chunk_idx := 0,
       text := "Intro.", page := some 1, figure_ids := [] } : ChunkRecord).figure_ids
      = ([] : List String) :=
  (C10_empty_figure_ids sampleParams samplePages []).1 _ (by decide)

/-! ## Claim C6 — positional context -/

/-- A one-row chunks table whose single chunk sits at `chunk_idx = 5`. -/
def posTable : List ChunkRow :=
  [{ paper_id := "p", chapter_idx := 0, section_idx := 0, chunk_idx := 5 }]

/-- C6 counterexample: `position_context` computes `is_last_in_section` with
`chunk_idx + 1 >= total_chunks_in_section`, not with equality as claimed.
For the stored chunk at `(p, 0, 0, 5)` in a table holding only that row,
the section total is 1, so the claimed flag `chunk_idx + 1 =
total_chunks_in_section` is false while the code reports `true`. -/
theorem C6_counterexample :
    (position_context posTable "p" 0 0 5).is_last_in_section = true
    ∧ 5 + 1 ≠ (position_context posTable "p" 0 0 5).total_chunks_in_section := by
  constructor
  · decide
  · decide

/-- C6 (amended): the positional context of a chunk at
`(paper_id, chapter_idx, section_idx, chunk_idx)` reports the number of
stored chunks with that `(paper_id, chapter_idx, section_idx)`, the number
of distinct `section_idx` values in that chapter of that paper, the number
of distinct `chapter_idx` values of that paper, `is_first_in_section` true
iff `chunk_idx = 0`, and `is_last_in_section` true iff `chunk_idx + 1 ≥
total_chunks_in_section` (`≥`, not `=`: the flag is also true when
`chunk_idx + 1` exceeds the section total). -/
theorem C6_amended (table : List ChunkRow) (pid : String) (c s k : Nat) :
    (position_context table pid c s k).total_chunks_in_section =
      table.countP (fun r =>
        decide (r.paper_id = pid ∧ r.chapter_idx = c ∧ r.section_idx = s))
    ∧ (position_context table pid c s k).total_sections_in_chapter =
      ((table.filter (fun r => decide (r.paper_id = pid ∧ r.chapter_idx = c))).map
        (fun r => r.section_idx)).toFinset.card
    ∧ (position_context table pid c s k).total_chapters_in_paper =
      ((table.filter (fun r => decide (r.paper_id = pid))).map
        (fun r => r.chapter_idx)).toFinset.card
    ∧ ((position_context table pid c s k).is_first_in_section = true ↔ k = 0)
    ∧ ((position_context table pid c s k).is_last_in_section = true ↔
        (position_context table pid c s k).total_chunks_in_section ≤ k + 1) := by
  have hp1 : (fun (r : ChunkRow) =>
      r.paper_id == pid && r.chapter_idx == c && r.section_idx == s) =
      (fun r => decide (r.paper_id = pid ∧ r.chapter_idx = c ∧ r.section_idx = s)) := by
    funext r
    by_cases h1 : r.paper_id = pid <;> by_cases h2 : r.chapter_idx = c <;>
      by_cases h3 : r.section_idx = s <;> simp [h1, h2, h3]
  have hp2 : (fun (r : ChunkRow) => r.paper_id == pid && r.chapter_idx == c) =
      (fun r => decide (r.paper_id = pid ∧ r.chapter_idx = c)) := by
    funext r
    by_cases h1 : r.paper_id = pid <;> by_cases h2 : r.chapter_idx = c <;>
      simp [h1, h2]
  have hp3 : (fun (r : ChunkRow) => r.paper_id == pid) =
      (fun r => decide (r.paper_id = pid)) := by
    funext r
    by_cases h1 : r.paper_id = pid <;> simp [h1]
  refine ⟨?_, ?_, ?_, ?_, ?_⟩
  · show (table.filter _).length = _
    rw [List.countP_eq_length_filter, hp1]
  · show ((table.filter _).map (fun r => r.section_idx)).dedup.length = _
    rw [List.card_toFinset, hp2]
  · show ((table.filter _).map (fun r => r.chapter_idx)).dedup.length = _
    rw [List.card_toFinset, hp3]
  · show (k == 0) = true ↔ k = 0
    simp
  · show decide ((table.filter _).length ≤ k + 1) = true ↔ _
    simp only [decide_eq_true_eq]
    exact Iff.rfl

/-! ## Paper resolver (crates/papers-core/src/selection.rs, resolve_paper) -/

instance instDecEqExcept {ε α : Type} [DecidableEq ε] [DecidableEq α] :
    DecidableEq (Except ε α)
  | Except.ok a, Except.ok b => decidable_of_iff (a = b) (by simp)
  | Except.ok _, Except.error _ => Decidable.isFalse (by simp)
  | Except.error _, Except.ok _ => Decidable.isFalse (by simp)
  | Except.error e, Except.error f => decidable_of_iff (e = f) (by simp)

/-- `SelectionEntry` from selection.rs. -/
structure SelectionEntry where
  zotero_key : Option String
  openalex_id : Option String
  doi : Option String
  title : Option String
  authors : Option (List String)
  year : Option Nat
  issn : Option (List String)
  isbn : Option (List String)
deriving DecidableEq, Repr

/-- The all-unset entry that `resolve_paper` starts from. -/
def emptySelectionEntry : SelectionEntry :=
  { zotero_key := none, openalex_id := none, doi := none, title := none,
    authors := none, year := none, issn := none, isbn := none }

/-- The reference-manager item fields read by the resolver
(`data.creators[*]`). -/
structure ZoteroCreator where
  first_name : Option String
  last_name : Option String
  name : Option String
deriving DecidableEq, Repr

/-- The reference-manager item fields read by the resolver (`data`). -/
structure ZoteroItemData where
  title : Option String
  creators : List ZoteroCreator
  date : Option String
  doi : Option String
  issn : Option String
  isbn : Option String
deriving DecidableEq, Repr

/-- The reference-manager item fields read by the resolver (`meta`). -/
structure ZoteroItemMeta where
  parsed_date : Option String
deriving DecidableEq, Repr

/-- A reference-manager item, projected to the fields the resolver reads. -/
structure ZoteroItem where
  key : String
  data : ZoteroItemData
  meta : ZoteroItemMeta
deriving DecidableEq, Repr

/-- `ItemListParams` fields set by the resolver. -/
structure ItemListParams where
  q : Option String
  qmode : Option String
  limit : Option Nat
deriving DecidableEq, Repr

/-- Scholarly work: `primary_location.source`. -/
structure OaSource where
  issn : Option (List String)
deriving DecidableEq, Repr

/-- Scholarly work: `primary_location`. -/
structure OaLocation where
  source : Option OaSource
deriving DecidableEq, Repr

/-- Scholarly work: `authorships[*].author`. -/
structure OaAuthor where
  display_name : Option String
deriving DecidableEq, Repr

/-- Scholarly work: `authorships[*]`. -/
structure OaAuthorship where
  author : Option OaAuthor
deriving DecidableEq, Repr

/-- A scholarly work, projected to the fields the resolver reads. -/
structure OaWork where
  id : String
  doi : Option String
  display_name : Option String
  title : Option String
  authorships : Option (List OaAuthorship)
  publication_year : Option Nat
  primary_location : Option OaLocation
deriving DecidableEq, Repr

/-- `ListParams` fields set by the resolver for the scholarly list call. -/
structure OaListParams where
  search : Option String
  per_page : Option Nat
deriving DecidableEq, Repr

/-- The reference-manager client as an oracle: each fallible HTTP call is a
function returning `some` response or `none` for an error (the resolver
discards the error payloads). `list_top_items` returns the `items` list. -/
structure ZoteroClient where
  get_item : String → Option ZoteroItem
  list_top_items : ItemListParams → Option (List ZoteroItem)

/-- The scholarly client as an oracle; `list_works` returns the `results`
list. -/
structure OpenAlexClient where
  get_work : String → Option OaWork
  list_works : OaListParams → Option (List OaWork)

/-- The author-name extraction of `fill_from_zotero_item`: joined
`first last` when both are present and nonempty after trimming, else the
single nonempty `name` field. -/
def creatorName (c : ZoteroCreator) : Option String :=
  match c.first_name, c.last_name with
  | some f, some l =>
    let nm := trimStr (f ++ " " ++ l)
    if nm ≠ "" then some nm
    else c.name.filter (fun n => !(n == ""))
  | _, _ => c.name.filter (fun n => !(n == ""))

/-- `fill_from_zotero_item` from selection.rs: copy item fields into the
still-unset entry fields. -/
def fill_from_zotero_item (entry : SelectionEntry) (item : ZoteroItem) :
    SelectionEntry :=
  let entry :=
    if entry.title = none then { entry with title := item.data.title } else entry
  let entry :=
    if entry.authors = none then
      let authors := item.data.creators.filterMap creatorName
      if authors ≠ [] then { entry with authors := some authors } else entry
    else entry
  let entry :=
    if entry.year = none then
      let date_str := item.meta.parsed_date.orElse (fun _ => item.data.date)
      { entry with
          year := (date_str.map (fun d =>
            String.mk (d.data.takeWhile (fun c => c ≠ '-')))).bind parseUsize }
    else entry
  let entry :=
    if entry.doi = none then
      { entry with doi := item.data.doi.map (fun d => stripDoiPfx d) }
    else entry
  let entry :=
    if entry.issn = none then
      match item.data.issn with
      | some issn => if issn ≠ "" then { entry with issn := some [issn] } else entry
      | none => entry
    else entry
  let entry :=
    if entry.isbn = none then
      match item.data.isbn with
      | some isbn => if isbn ≠ "" then { entry with isbn := some [isbn] } else entry
      | none => entry
    else entry
  entry

/-- `fill_from_oa_work` from selection.rs: merge scholarly fields into the
still-unset entry fields; the work id and DOI are URL-unwrapped (the DOI
unwrap here knows only the two URL forms, not `doi:`). -/
def fill_from_oa_work (entry : SelectionEntry) (work : OaWork) :
    SelectionEntry :=
  let entry :=
    if entry.openalex_id = none then
      { entry with
          openalex_id := some ((strDropPfx work.id "https://openalex.org/").getD work.id) }
    else entry
  let entry :=
    if entry.doi = none then
      { entry with
          doi := work.doi.map (fun d =>
            ((strDropPfx d "https://doi.org/").orElse
              (fun _ => strDropPfx d "http://doi.org/")).getD d) }
    else entry
  let entry :=
    if entry.title = none then
      { entry with title := work.display_name.orElse (fun _ => work.title) }
    else entry
  let entry :=
    if entry.authors = none then
      match work.authorships with
      | some authorships =>
        let names := authorships.filterMap
          (fun a => a.author.bind (fun au => au.display_name))
        if names ≠ [] then { entry with authors := some names } else entry
      | none => entry
    else entry
  let entry :=
    if entry.year = none then { entry with year := work.publication_year }
    else entry
  let entry :=
    if entry.issn = none then
      { entry with
          issn := (work.primary_location.bind (fun l => l.source)).bind
            (fun src => src.issn) }
    else entry
  entry

/-- `resolve_via_openalex` from selection.rs. -/
def resolve_via_openalex (input : String) (client : OpenAlexClient)
    (is_doi is_oa_id : Bool) : Option OaWork :=
  if is_doi then
    let bare := stripDoiPfx input
    client.get_work ("doi:" ++ bare)
  else if is_oa_id then
    let id := (strDropPfx input "https://openalex.org/").getD input
    client.get_work id
  else
    (client.list_works { search := some input, per_page := some 1 }).bind
      (fun results => results.head?)

/-- Steps 2-4 of `resolve_paper` (selection.rs lines 300-380) on the trimmed
input: classify, attempt reference-manager resolution, attempt scholarly
resolution and merge, retry the reference manager by DOI. The input
classifier `looksLikeZoteroKey` lives in papers-core's zotero module (not
under src/); it is abstracted as a parameter — no property below depends
on it. -/
def resolveSteps (looksLikeZoteroKey : String → Bool) (input : String)
    (client : OpenAlexClient) (zotero : Option ZoteroClient) : SelectionEntry :=
  let entry0 := emptySelectionEntry
  let is_zotero_key := looksLikeZoteroKey input
  let is_doi := looks_like_doi input
  let is_oa_id := looks_like_openalex_work_id input
  let entry :=
    match zotero with
    | none => entry0
    | some z =>
      if is_zotero_key then
        match z.get_item input with
        | some item =>
          fill_from_zotero_item { entry0 with zotero_key := some item.key } item
        | none => entry0
      else if is_doi then
        let bare := stripDoiPfx input
        match z.list_top_items
            { q := some bare, qmode := some "everything", limit := some 1 } with
        | some items =>
          match items.head? with
          | some item =>
            fill_from_zotero_item { entry0 with zotero_key := some item.key } item
          | none => entry0
        | none => entry0
      else if !is_oa_id then
        match z.list_top_items { q := some input, qmode := none, limit := some 1 } with
        | some items =>
          match items with
          | [item] =>
            fill_from_zotero_item { entry0 with zotero_key := some item.key } item
          | _ => entry0
        | none => entry0
      else entry0
  match resolve_via_openalex input client is_doi is_oa_id with
  | none => entry
  | some work =>
    let entry := fill_from_oa_work entry work
    if entry.zotero_key = none then
      match zotero, entry.doi with
      | some z, some doi =>
        let bare := stripDoiPfx doi
        match z.list_top_items
            { q := some bare, qmode := some "everything", limit := some 1 } with
        | some items =>
          match items.head? with
          | some item =>
            let entry := { entry with zotero_key := some item.key }
            if entry.isbn = none then
              match item.data.isbn with
              | some isbn =>
                if isbn ≠ "" then { entry with isbn := some [isbn] } else entry
              | none => entry
            else entry
          | none => entry
        | none => entry
      | _, _ => entry
    else entry

/-- `resolve_paper` from selection.rs: trim, run the resolution steps, and
fail with cannot-resolve (carrying the trimmed input) exactly when no key,
scholarly id, DOI or title was filled. -/
def resolve_paper (looksLikeZoteroKey : String → Bool) (input : String)
    (client : OpenAlexClient) (zotero : Option ZoteroClient) :
    Except SelectionError SelectionEntry :=
  let trimmed := trimStr input
  let entry := resolveSteps looksLikeZoteroKey trimmed client zotero
  if entry.zotero_key = none ∧ entry.openalex_id = none ∧ entry.doi = none ∧
      entry.title = none then
    Except.error (SelectionError.CannotResolve trimmed)
  else
    Except.ok entry

/-- A scholarly client whose calls all come back empty. -/
def oaNoneClient : OpenAlexClient :=
  { get_work := fun _ => none, list_works := fun _ => some [] }

/-- The scholarly stub of the resolver-fallback seed scenario. -/
def stubWork : OaWork :=
  { id := "https://openalex.org/W300",
    doi := some "https://doi.org/10.300/dup",
    display_name := some "Dup Paper",
    title := none,
    authorships := some [{ author := some { display_name := some "Auth" } }],
    publication_year := some 2020,
    primary_location := some { source := some { issn := some ["0028-0836"] } } }

/-- A scholarly client answering every call with the stub work. -/
def oaStubClient : OpenAlexClient :=
  { get_work := fun _ => some stubWork, list_works := fun _ => some [stubWork] }

/-- C9 counterexample: when resolution exhausts all strategies, the
cannot-resolve error carries the TRIMMED input, not the original one: for
the original input `" x "` (with surrounding spaces) the error carries
`"x"`. -/
theorem C9_counterexample :
    resolve_paper (fun _ => false) " x " oaNoneClient none =
      Except.error (SelectionError.CannotResolve "x")
    ∧ resolve_paper (fun _ => false) " x " oaNoneClient none ≠
      Except.error (SelectionError.CannotResolve " x ") := by
  constructor
  · decide
  · decide

/-- C9 (amended): `resolve_paper` fails with a cannot-resolve error carrying
the trimmed input exactly when, after all resolution steps
(reference-manager lookup, scholarly lookup, merge, DOI retry), the
resulting entry's `zotero_key`, `openalex_id`, `doi` and `title` are all
unset; otherwise it returns that entry. -/
theorem C9_amended (lzk : String → Bool) (input : String)
    (client : OpenAlexClient) (zotero : Option ZoteroClient) :
    (resolve_paper lzk input client zotero =
        Except.error (SelectionError.CannotResolve (trimStr input)) ↔
      ((resolveSteps lzk (trimStr input) client zotero).zotero_key = none ∧
       (resolveSteps lzk (trimStr input) client zotero).openalex_id = none ∧
       (resolveSteps lzk (trimStr input) client zotero).doi = none ∧
       (resolveSteps lzk (trimStr input) client zotero).title = none))
    ∧ (¬ ((resolveSteps lzk (trimStr input) client zotero).zotero_key = none ∧
          (resolveSteps lzk (trimStr input) client zotero).openalex_id = none ∧
          (resolveSteps lzk (trimStr input) client zotero).doi = none ∧
          (resolveSteps lzk (trimStr input) client zotero).title = none) →
        resolve_paper lzk input client zotero =
          Except.ok (resolveSteps lzk (trimStr input) client zotero)) := by
  have hdef : resolve_paper lzk input client zotero =
      (if (resolveSteps lzk (trimStr input) client zotero).zotero_key = none ∧
          (resolveSteps lzk (trimStr input) client zotero).openalex_id = none ∧
          (resolveSteps lzk (trimStr input) client zotero).doi = none ∧
          (resolveSteps lzk (trimStr input) client zotero).title = none then
        Except.error (SelectionError.CannotResolve (trimStr input))
      else Except.ok (resolveSteps lzk (trimStr input) client zotero)) := rfl
  by_cases h : (resolveSteps lzk (trimStr input) client zotero).zotero_key = none ∧
      (resolveSteps lzk (trimStr input) client zotero).openalex_id = none ∧
      (resolveSteps lzk (trimStr input) client zotero).doi = none ∧
      (resolveSteps lzk (trimStr input) client zotero).title = none
  · rw [hdef, if_pos h]
    exact ⟨⟨fun _ => h, fun _ => rfl⟩, fun hc => absurd h hc⟩
  · rw [hdef, if_neg h]
    exact ⟨⟨fun hc => absurd hc (by simp), fun hc => absurd hc h⟩, fun _ => rfl⟩

/-- C9 witness: a bare-DOI input resolved through the scholarly stub is
returned as the (non-empty) merged entry. -/
theorem C9_amended_witness :
    resolve_paper (fun _ => false) "10.300/dup" oaStubClient none =
      Except.ok (resolveSteps (fun _ => false) (trimStr "10.300/dup")
        oaStubClient none) :=
  (C9_amended (fun _ => false) "10.300/dup" oaStubClient none).2 (by decide)
